import Mathlib

/-!
Shallow embedding of the llbc object-lifetime substrate (`llbc/src/objbase/Object.cpp`)
and the component method table (`llbc/include/llbc/comm/ComponentInl.h`), together with
theorems settling the specification claims about them.

Machine integers: `_ref` is a C `int`; the spec treats it as a signed integer that stays
small (≥ 0 while the object is alive), so it is modelled as `Int` without wraparound.
Pointers are modelled as `Option Nat` (`none` = `NULL`, `some p` = the pointee's identity).
-/

namespace LLBC

/-- Status codes: `LLBC_OK = LLBC_ERROR_SUCCESS(0)`, `LLBC_FAILED = -1` (common/Errors.h). -/
def LLBC_OK : Int := 0

/-- Failure status code returned by fallible operations. -/
def LLBC_FAILED : Int := -1

/-- Error kinds set through `LLBC_SetLastError` (thread-local last error) by the code the
claims cover: `LLBC_ERROR_ARG`, `LLBC_ERROR_NOT_FOUND`, `LLBC_ERROR_REPEAT`. -/
inductive ErrKind where
  | Arg
  | NotFound
  | Repeat
  deriving DecidableEq, Repr

/-! ## Object state (`LLBC_Object`, Object.cpp) -/

/-- State of an `LLBC_Object`: `_ref` (refcount), `_autoRef` (pool enlistment count) and
`_poolStack` (pointer to the owning thread's pool stack, `none` = `NULL`). -/
structure LLBC_Object where
  ref : Int
  autoRef : Int
  poolStack : Option Nat
  deriving DecidableEq, Repr

/-- Constructor `LLBC_Object::LLBC_Object()`: `_ref(1), _autoRef(0), _poolStack(NULL)`. -/
def mkObject : LLBC_Object := { ref := 1, autoRef := 0, poolStack := none }

/-- `LLBC_Object::Retain()`: `++_ref`. -/
def Retain (o : LLBC_Object) : LLBC_Object := { o with ref := o.ref + 1 }

/-- `LLBC_Object::Release()`: `if (--_ref == 0) LLBC_Delete(this)`. The `Bool` result
records whether destruction began (the object was deleted). -/
def Release (o : LLBC_Object) : LLBC_Object × Bool :=
  let o' := { o with ref := o.ref - 1 }
  (o', decide (o'.ref = 0))

/-- `LLBC_Object::SafeRetain()`: `LLBC_AtomicFetchAndAdd(&_ref, 1)`; sequential embedding
of the atomic increment. -/
def SafeRetain (o : LLBC_Object) : LLBC_Object := { o with ref := o.ref + 1 }

/-- `LLBC_Object::SafeRelease()`: `if (LLBC_AtomicFetchAndSub(&_ref, 1) == 1) LLBC_Delete(this)`;
the fetch returns the value before the subtraction. -/
def SafeRelease (o : LLBC_Object) : LLBC_Object × Bool :=
  let old := o.ref
  ({ o with ref := old - 1 }, decide (old = 1))

/-! ## Auto-release pool stack -/

/-- State of one thread's `LLBC_AutoReleasePoolStack`: the top pool frame and the frames
below it, each frame a list of enlisted object identities (most recent first). -/
structure PoolStackSt where
  top : List Nat
  rest : List (List Nat)
  deriving DecidableEq, Repr

/-- Modelled from the spec: `LLBC_AutoReleasePoolStack::AddObject` is not under `src/`
(only its caller `LLBC_Object::AutoRelease` is). Per spec §4.A, enlisting "increments
`autoRef`, ... and records this object in the top frame; it does not change `ref`", and
the enlistment itself succeeds, so it returns `LLBC_OK`. -/
def AddObject (ps : PoolStackSt) (o : LLBC_Object) (oid : Nat) :
    Int × LLBC_Object × PoolStackSt :=
  (LLBC_OK, { o with autoRef := o.autoRef + 1 }, { ps with top := oid :: ps.top })

/-- Pool stack pointer used by `AutoRelease`: the object's `_poolStack` when non-null,
otherwise the thread-local `tls->objbaseTls.poolStack` (the lazy resolution). -/
def resolvePool (o : LLBC_Object) (tlsPoolStack : Option Nat) : Option Nat :=
  match o.poolStack with
  | some p => some p
  | none => tlsPoolStack

/-- `LLBC_Object::AutoRelease()`: when `_poolStack` is `NULL` it is loaded from thread-local
storage, then `return _poolStack->AddObject(this)`. When the resolved pointer is still
`NULL` the source dereferences it — undefined behaviour, modelled as `none` (no return
value). `pools` maps pool-stack identities to their states; `oid` is this object's
identity. On the `some` path the result carries `AddObject`'s status, the updated object
and the updated pool environment. -/
def AutoRelease (o : LLBC_Object) (tlsPoolStack : Option Nat)
    (pools : Nat → PoolStackSt) (oid : Nat) :
    Option (Int × LLBC_Object × (Nat → PoolStackSt)) :=
  match resolvePool o tlsPoolStack with
  | none => none
  | some p =>
    let r := AddObject (pools p) { o with poolStack := some p } oid
    some (r.1, r.2.1, fun q => if q = p then r.2.2 else pools q)

/-- Operations that act on an object during its life (constructor and destructor aside).
`autoRelease` carries the thread-local pool-stack pointer and the object's identity. -/
inductive ObjOp where
  | retain
  | release
  | safeRetain
  | safeRelease
  | autoRelease (tlsPoolStack : Option Nat) (oid : Nat)
  deriving Repr

/-- Object-state transition of each operation; `none` when the operation does not return
(the null-pool-stack dereference in `AutoRelease`). -/
def objStep (op : ObjOp) (o : LLBC_Object) (pools : Nat → PoolStackSt) :
    Option LLBC_Object :=
  match op with
  | .retain => some (Retain o)
  | .release => some (Release o).1
  | .safeRetain => some (SafeRetain o)
  | .safeRelease => some (SafeRelease o).1
  | .autoRelease tls oid =>
    match AutoRelease o tls pools oid with
    | none => none
    | some r => some r.2.1

/-- Pool environment where every pool stack is empty; used for concrete evaluations. -/
def poolEnv0 : Nat → PoolStackSt := fun _ => { top := [], rest := [] }

/-! ## Component method table (`LLBC_ComponentMethods`, ComponentInl.h) -/

/-- Stand-in for `LLBC_Variant`: an opaque dynamic value whose internal structure none of
the claims depend on. -/
def LLBC_Variant := Nat

/-- `LLBC_ComponentMethod`, a delegate: `isNull` is what `operator!` tests (true for the
default-constructed delegate), `fn` maps the `arg` variant to the `ret` variant and the
returned status. -/
structure LLBC_ComponentMethod where
  isNull : Bool
  fn : LLBC_Variant → LLBC_Variant × Int

/-- Value of `static const LLBC_ComponentMethod nullMeth` in `GetMethod`: a
default-constructed (null) delegate. -/
def nullMeth : LLBC_ComponentMethod := { isNull := true, fn := fun v => (v, LLBC_FAILED) }

/-- First-match key lookup in an association list. It models both `std::map::find` on
`_meths` (whose keys are unique, so any traversal order gives the same answer) and the
linear scan over `_methList` in `GetMethod`. -/
def assocFind (l : List (String × LLBC_ComponentMethod)) (name : String) :
    Option LLBC_ComponentMethod :=
  match l with
  | [] => none
  | (k, v) :: rest => if k = name then some v else assocFind rest name

/-- Key-ordered insertion, modelling `std::map::emplace` on `_meths` when the key is
absent (`std::map` keeps entries sorted by key). -/
def mapInsert (l : List (String × LLBC_ComponentMethod)) (name : String)
    (meth : LLBC_ComponentMethod) : List (String × LLBC_ComponentMethod) :=
  match l with
  | [] => [(name, meth)]
  | (k, v) :: rest =>
    if name < k then (name, meth) :: (k, v) :: rest
    else (k, v) :: mapInsert rest name meth

/-- State of an `LLBC_ComponentMethods`: `_meths` (the `std::map`, kept key-sorted) and
`_methList` (the vector, in insertion order). -/
structure LLBC_ComponentMethods where
  meths : List (String × LLBC_ComponentMethod)
  methList : List (String × LLBC_ComponentMethod)

/-- Freshly constructed `LLBC_ComponentMethods`: both containers empty. -/
def emptyMethods : LLBC_ComponentMethods := { meths := [], methList := [] }

/-- Lookup through the linear-scan branch of `GetMethod` (taken when
`_methList.size() <= 30`): scan `_methList`; on a miss set `LLBC_ERROR_NOT_FOUND` and
return `nullMeth`. The second component is the error this call sets, if any. -/
def lookupViaList (cm : LLBC_ComponentMethods) (name : String) :
    LLBC_ComponentMethod × Option ErrKind :=
  match assocFind cm.methList name with
  | some m => (m, none)
  | none => (nullMeth, some ErrKind.NotFound)

/-- Lookup through the map branch of `GetMethod` (taken when `_methList.size() > 30`):
`_meths.find`; on a miss set `LLBC_ERROR_NOT_FOUND` and return `nullMeth`. -/
def lookupViaMap (cm : LLBC_ComponentMethods) (name : String) :
    LLBC_ComponentMethod × Option ErrKind :=
  match assocFind cm.meths name with
  | some m => (m, none)
  | none => (nullMeth, some ErrKind.NotFound)

/-- `LLBC_ComponentMethods::GetMethod`: linear scan over `_methList` when it holds at
most 30 entries, `_meths.find` beyond that. -/
def GetMethod (cm : LLBC_ComponentMethods) (name : String) :
    LLBC_ComponentMethod × Option ErrKind :=
  if cm.methList.length ≤ 30 then lookupViaList cm name else lookupViaMap cm name

/-- `LLBC_ComponentMethods::AddMethod`: reject an empty name with `LLBC_ERROR_ARG`;
reject a name already in `_meths` (failed `emplace`) with `LLBC_ERROR_REPEAT`; otherwise
insert into `_meths`, push onto `_methList` and return `LLBC_OK`. Result: status, new
state, error set by this call. -/
def AddMethod (cm : LLBC_ComponentMethods) (name : String)
    (meth : LLBC_ComponentMethod) : Int × LLBC_ComponentMethods × Option ErrKind :=
  if name = "" then
    (LLBC_FAILED, cm, some ErrKind.Arg)
  else if (assocFind cm.meths name).isSome then
    (LLBC_FAILED, cm, some ErrKind.Repeat)
  else
    (LLBC_OK,
     { meths := mapInsert cm.meths name meth, methList := cm.methList ++ [(name, meth)] },
     none)

/-- Method-table states reachable from a fresh `LLBC_ComponentMethods` by any sequence
of `AddMethod` calls (failed calls leave the state unchanged). -/
inductive ReachableMethods : LLBC_ComponentMethods → Prop where
  | nil : ReachableMethods emptyMethods
  | step (cm : LLBC_ComponentMethods) (name : String) (meth : LLBC_ComponentMethod) :
      ReachableMethods cm → ReachableMethods (AddMethod cm name meth).2.1

/-- Outcome of a `CallMethod` call: the returned status, the error set by the call (if
any), whether a registered method was invoked, and the `ret` variant it produced. -/
structure CallOutcome where
  status : Int
  errSet : Option ErrKind
  invoked : Bool
  retVal : Option LLBC_Variant

/-- `LLBC_ComponentMethods::CallMethod`: `GetMethod`, then `if (!meth) return LLBC_FAILED`,
else `return meth(arg, ret)`. -/
def CallMethod (cm : LLBC_ComponentMethods) (name : String) (arg : LLBC_Variant) :
    CallOutcome :=
  let r := GetMethod cm name
  if r.1.isNull then
    { status := LLBC_FAILED, errSet := r.2, invoked := false, retVal := none }
  else
    let v := r.1.fn arg
    { status := v.2, errSet := r.2, invoked := true, retVal := some v.1 }

/-- State of an `LLBC_Component` relevant to method dispatch: `_meths` is a pointer,
`NULL` until the first `AddMethod`. -/
structure LLBC_Component where
  meths : Option LLBC_ComponentMethods

/-- `LLBC_Component::CallMethod`: when `_meths` is `NULL` set `LLBC_ERROR_NOT_FOUND` and
return `LLBC_FAILED`; otherwise delegate to `_meths->CallMethod`. -/
def ComponentCallMethod (c : LLBC_Component) (name : String) (arg : LLBC_Variant) :
    CallOutcome :=
  match c.meths with
  | none =>
    { status := LLBC_FAILED, errSet := some ErrKind.NotFound, invoked := false,
      retVal := none }
  | some cm => CallMethod cm name arg

/-- Predicate: `name` is registered in neither of the component's lookup structures
(vacuously satisfied when the component's `_meths` is still `NULL`). -/
def NotRegistered (c : LLBC_Component) (name : String) : Prop :=
  match c.meths with
  | none => True
  | some cm => assocFind cm.meths name = none ∧ assocFind cm.methList name = none

/-- Sample non-null method, used for concrete instantiations. -/
def sampleMeth : LLBC_ComponentMethod := { isNull := false, fn := fun v => (v, LLBC_OK) }

/-- Method table holding the single binding `"a" ↦ sampleMeth`. -/
def sampleMethods : LLBC_ComponentMethods := (AddMethod emptyMethods "a" sampleMeth).2.1

/-- Sample variant argument, used for concrete instantiations. -/
def sampleArg : LLBC_Variant := Nat.zero

/-! ## Helper lemmas -/

/-- Looking a key up after a key-ordered insertion of an absent key: the inserted key
finds the new value, every other key finds what it found before. -/
theorem assocFind_mapInsert (l : List (String × LLBC_ComponentMethod)) (n : String)
    (m : LLBC_ComponentMethod) (k : String) (h : assocFind l n = none) :
    assocFind (mapInsert l n m) k = if k = n then some m else assocFind l k := by
  induction l with
  | nil =>
    rcases eq_or_ne k n with hk | hk <;> simp [mapInsert, assocFind, hk, Ne.symm]
  | cons hd tl ih =>
    obtain ⟨k', v'⟩ := hd
    by_cases hk' : k' = n
    · simp [assocFind, hk'] at h
    · simp only [assocFind, if_neg hk'] at h
      simp only [mapInsert]
      by_cases hlt : n < k'
      · rw [if_pos hlt]
        rcases eq_or_ne k n with hk | hk <;> simp [assocFind, hk, Ne.symm, hk']
      · rw [if_neg hlt]
        by_cases hkk : k' = k
        · subst hkk
          simp [assocFind, hk']
        · simp [assocFind, hkk, ih h]

/-- Looking a key up after appending a binding for an absent key: the appended key finds
the new value, every other key finds what it found before. -/
theorem assocFind_append (l : List (String × LLBC_ComponentMethod)) (n : String)
    (m : LLBC_ComponentMethod) (k : String) (h : assocFind l n = none) :
    assocFind (l ++ [(n, m)]) k = if k = n then some m else assocFind l k := by
  induction l with
  | nil =>
    rcases eq_or_ne k n with hk | hk <;> simp [assocFind, hk, Ne.symm]
  | cons hd tl ih =>
    obtain ⟨k', v'⟩ := hd
    by_cases hk' : k' = n
    · simp [assocFind, hk'] at h
    · simp only [assocFind, if_neg hk'] at h
      by_cases hkk : k' = k
      · have hkn : k ≠ n := fun hh => hk' (hkk.trans hh)
        simp [assocFind, hkk, hkn]
      · simp [assocFind, hkk, ih h]

/-- Synchronisation invariant of `LLBC_ComponentMethods`: in every reachable state the
map `_meths` and the vector `_methList` answer every key lookup identically. -/
theorem reachable_find_eq (cm : LLBC_ComponentMethods) (h : ReachableMethods cm)
    (k : String) : assocFind cm.meths k = assocFind cm.methList k := by
  induction h generalizing k with
  | nil => rfl
  | step cm' name meth _ ih =>
    by_cases h1 : name = ""
    · simpa [AddMethod, h1] using ih k
    · by_cases h2 : (assocFind cm'.meths name).isSome
      · simpa [AddMethod, h1, h2] using ih k
      · have h2' : assocFind cm'.meths name = none :=
          Option.not_isSome_iff_eq_none.mp h2
        have hlist : assocFind cm'.methList name = none := (ih name) ▸ h2'
        simp only [AddMethod, if_neg h1, h2', Option.isSome_none, Bool.false_eq_true,
          if_false, if_neg]
        rw [assocFind_mapInsert cm'.meths name meth k h2',
          assocFind_append cm'.methList name meth k hlist]
        rcases eq_or_ne k name with hk | hk <;> simp [hk, ih k]

/-! ## Claim theorems -/

/-- C1: for every method table reachable by a sequence of `AddMethod` calls and every
lookup name, `GetMethod` returns the same result regardless of which internal lookup path
is taken: its answer coincides with the linear-scan path (the ≤ 30-entry branch) and with
the hash-map path (the > 30-entry branch), so a 30-entry and a 31-entry table answer
every lookup of the same registered names identically. -/
theorem GetMethod_path_independent (cm : LLBC_ComponentMethods)
    (h : ReachableMethods cm) (name : String) :
    GetMethod cm name = lookupViaList cm name ∧ GetMethod cm name = lookupViaMap cm name := by
  have hlm : lookupViaList cm name = lookupViaMap cm name := by
    unfold lookupViaList lookupViaMap
    rw [reachable_find_eq cm h name]
  unfold GetMethod
  by_cases hlen : cm.methList.length ≤ 30 <;> simp [hlen, hlm]

/-- Witness for C1 at the one-entry table `sampleMethods` and the name `"a"`. -/
theorem GetMethod_path_independent_w :
    ReachableMethods sampleMethods ∧
      (GetMethod sampleMethods "a" = lookupViaList sampleMethods "a" ∧
        GetMethod sampleMethods "a" = lookupViaMap sampleMethods "a") :=
  ⟨ReachableMethods.step emptyMethods "a" sampleMeth ReachableMethods.nil,
    GetMethod_path_independent sampleMethods
      (ReachableMethods.step emptyMethods "a" sampleMeth ReachableMethods.nil) "a"⟩

/-- C2 counterexample: on a fresh object, with the thread-local pool stack null,
`AutoRelease` does not return at all (the source dereferences the null `_poolStack`,
modelled as `none`), so it does not return a distinguishable failure code. -/
theorem AutoRelease_noPool_cex : AutoRelease mkObject none poolEnv0 0 = none := rfl

/-- C2 (amended): when the object's `_poolStack` and the thread-local pool stack are both
null, `AutoRelease` does not return a failure code: it dereferences the null pool stack
(undefined behaviour, modelled as no result), and the core does not implicitly create a
pool. -/
theorem AutoRelease_noPool (o : LLBC_Object) (tls : Option Nat)
    (pools : Nat → PoolStackSt) (oid : Nat) (h : resolvePool o tls = none) :
    AutoRelease o tls pools oid = none := by
  unfold AutoRelease
  rw [h]

/-- Witness for the amended C2 on a fresh object with null thread-local pool stack. -/
theorem AutoRelease_noPool_w :
    resolvePool mkObject none = none ∧ AutoRelease mkObject none poolEnv0 1 = none :=
  ⟨rfl, AutoRelease_noPool mkObject none poolEnv0 1 rfl⟩

/-- C3: whenever `AutoRelease` returns (the resolved pool stack `p` is non-null), it
leaves `ref` unchanged, increments `autoRef` by one, lazily resolves `_poolStack` to `p`,
and records the object in the top frame of `p`, returning `AddObject`'s status. -/
theorem AutoRelease_frame_effect (o : LLBC_Object) (tls : Option Nat)
    (pools : Nat → PoolStackSt) (oid : Nat) (p : Nat) (h : resolvePool o tls = some p) :
    AutoRelease o tls pools oid =
      some (LLBC_OK,
        { ref := o.ref, autoRef := o.autoRef + 1, poolStack := some p },
        fun q => if q = p then { top := oid :: (pools p).top, rest := (pools p).rest }
          else pools q) := by
  unfold AutoRelease
  rw [h]
  rfl

/-- Witness for C3 on a fresh object whose thread holds pool stack `0`. -/
theorem AutoRelease_frame_effect_w :
    resolvePool mkObject (some 0) = some 0 ∧
      AutoRelease mkObject (some 0) poolEnv0 7 =
        some (LLBC_OK,
          { ref := mkObject.ref, autoRef := mkObject.autoRef + 1, poolStack := some 0 },
          fun q => if q = 0 then { top := 7 :: (poolEnv0 0).top, rest := (poolEnv0 0).rest }
            else poolEnv0 q) :=
  ⟨rfl, AutoRelease_frame_effect mkObject (some 0) poolEnv0 7 0 rfl⟩

/-- C4: on an object whose refcount is at least 1, `Retain()` followed by `Release()`
restores the refcount and does not destroy the object. -/
theorem Retain_Release_noop (o : LLBC_Object) (h : 1 ≤ o.ref) :
    (Release (Retain o)).1.ref = o.ref ∧ (Release (Retain o)).2 = false := by
  refine ⟨by simp [Release, Retain], ?_⟩
  simp only [Release, Retain, decide_eq_false_iff_not]
  omega

/-- Witness for C4 on a freshly constructed object (`ref = 1`). -/
theorem Retain_Release_noop_w :
    1 ≤ mkObject.ref ∧
      ((Release (Retain mkObject)).1.ref = mkObject.ref ∧
        (Release (Retain mkObject)).2 = false) :=
  ⟨by decide, Retain_Release_noop mkObject (by decide)⟩

/-- C5: `Release()` decrements `ref` by exactly one, and begins destruction if and only
if the decremented refcount is zero; in particular (last conjunct) an object with
`ref ≥ 2` before the call is not destroyed. -/
theorem Release_decrements (o : LLBC_Object) :
    (Release o).1.ref = o.ref - 1 ∧
      ((Release o).2 = true ↔ o.ref - 1 = 0) ∧
      ((Release o).2 = false ∨ o.ref ≤ 1) := by
  refine ⟨by simp [Release], by simp [Release], ?_⟩
  by_cases h : o.ref ≤ 1
  · exact Or.inr h
  · refine Or.inl ?_
    simp only [Release, decide_eq_false_iff_not]
    omega

/-- C6: `AddMethod` fails with the `Arg` error kind on an empty name and with the
`Repeat` error kind on a duplicate name, leaving both internal structures (`_meths` and
`_methList`) unchanged on every failure; on success it returns `LLBC_OK`, inserts the
binding into the map and appends it to the list, and the binding is then found. -/
theorem AddMethod_error_handling (cm : LLBC_ComponentMethods) (name : String)
    (meth : LLBC_ComponentMethod) :
    (name = "" → AddMethod cm name meth = (LLBC_FAILED, cm, some ErrKind.Arg)) ∧
      (name ≠ "" → (assocFind cm.meths name).isSome = true →
        AddMethod cm name meth = (LLBC_FAILED, cm, some ErrKind.Repeat)) ∧
      (name ≠ "" → assocFind cm.meths name = none →
        AddMethod cm name meth =
          (LLBC_OK,
            { meths := mapInsert cm.meths name meth,
              methList := cm.methList ++ [(name, meth)] },
            none) ∧
          assocFind (mapInsert cm.meths name meth) name = some meth) := by
  refine ⟨fun h1 => by simp [AddMethod, h1], fun h1 h2 => by simp [AddMethod, h1, h2],
    fun h1 h2 => ⟨by simp [AddMethod, h1, h2], ?_⟩⟩
  rw [assocFind_mapInsert cm.meths name meth name h2]
  simp

/-- C7: calling a method name registered in neither lookup structure of a component —
including a component whose `_meths` is still `NULL` — fails with `LLBC_FAILED`, sets the
thread-local last error to the `NotFound` kind, and invokes no registered method. -/
theorem ComponentCallMethod_notFound (c : LLBC_Component) (name : String)
    (arg : LLBC_Variant) (h : NotRegistered c name) :
    ComponentCallMethod c name arg =
      { status := LLBC_FAILED, errSet := some ErrKind.NotFound, invoked := false,
        retVal := none } := by
  cases hc : c.meths with
  | none => simp [ComponentCallMethod, hc]
  | some cm =>
    simp only [NotRegistered, hc] at h
    obtain ⟨h1, h2⟩ := h
    by_cases hlen : cm.methList.length ≤ 30 <;>
      simp [ComponentCallMethod, hc, CallMethod, GetMethod, lookupViaList, lookupViaMap,
        h1, h2, nullMeth, hlen]

/-- Witness for C7 on a component that never had a method added. -/
theorem ComponentCallMethod_notFound_w :
    NotRegistered { meths := none } "m" ∧
      ComponentCallMethod { meths := none } "m" sampleArg =
        { status := LLBC_FAILED, errSet := some ErrKind.NotFound, invoked := false,
          retVal := none } :=
  ⟨trivial, ComponentCallMethod_notFound { meths := none } "m" sampleArg trivial⟩

/-- C8: once an object's `_poolStack` is a non-null pool stack `p`, no operation of the
object's life reassigns it: `AutoRelease` reads thread-local storage only while it is
still null, and the refcount operations never write it. -/
theorem poolStack_stable (op : ObjOp) (o : LLBC_Object) (pools : Nat → PoolStackSt)
    (p : Nat) (o' : LLBC_Object) (h1 : o.poolStack = some p)
    (h2 : objStep op o pools = some o') : o'.poolStack = some p := by
  have hres : ∀ tls, resolvePool o tls = some p := fun tls => by
    unfold resolvePool
    rw [h1]
  cases op with
  | retain => simp only [objStep, Option.some.injEq] at h2; subst h2; simpa [Retain]
  | release => simp only [objStep, Option.some.injEq] at h2; subst h2; simpa [Release]
  | safeRetain => simp only [objStep, Option.some.injEq] at h2; subst h2; simpa [SafeRetain]
  | safeRelease =>
    simp only [objStep, Option.some.injEq] at h2; subst h2; simpa [SafeRelease]
  | autoRelease tls oid =>
    simp only [objStep] at h2
    rw [AutoRelease_frame_effect o tls pools oid p (hres tls)] at h2
    simp only [Option.some.injEq] at h2
    subst h2
    rfl

/-- Witness for C8: a `Retain` step on an object already bound to pool stack `3`. -/
theorem poolStack_stable_w :
    ({ ref := 1, autoRef := 0, poolStack := some 3 } : LLBC_Object).poolStack = some 3 ∧
      objStep ObjOp.retain { ref := 1, autoRef := 0, poolStack := some 3 } poolEnv0 =
        some { ref := 2, autoRef := 0, poolStack := some 3 } ∧
      ({ ref := 2, autoRef := 0, poolStack := some 3 } : LLBC_Object).poolStack = some 3 :=
  ⟨rfl, by decide,
    poolStack_stable ObjOp.retain { ref := 1, autoRef := 0, poolStack := some 3 }
      poolEnv0 3 { ref := 2, autoRef := 0, poolStack := some 3 } rfl (by decide)⟩

/-- C9: in the sequential embedding `SafeRetain` performs the same state update as
`Retain`, and `SafeRelease` the same update and the same destruction decision as
`Release`. -/
theorem Safe_ops_equiv (o : LLBC_Object) :
    SafeRetain o = Retain o ∧ SafeRelease o = Release o := by
  refine ⟨rfl, ?_⟩
  simp only [SafeRelease, Release, Prod.mk.injEq, true_and]
  rw [decide_eq_decide]
  omega

/-- C10: a freshly constructed object has `ref = 1`, `autoRef = 0` and a null
`_poolStack`, and a single `Release()` with nothing in between destroys it. -/
theorem fresh_object_spec :
    mkObject.ref = 1 ∧ mkObject.autoRef = 0 ∧ mkObject.poolStack = none ∧
      Release mkObject = ({ ref := 0, autoRef := 0, poolStack := none }, true) := by
  refine ⟨rfl, rfl, rfl, ?_⟩
  simp [Release, mkObject]

end LLBC
